import Mathlib

/-!
Shallow embedding of the pattern-geometry engine of `gen_pattern.py`
(camera-calibration pattern generator).  Real-valued quantities are
modelled with `ℚ`; the Python floats in the source carry only small
decimal constants, which are exact here.  Grid indices are `Nat`
(loop variables from `range`) or `Int` (user-supplied marker pairs).
-/

/-- One command of an SVG path string, as assembled by `_make_round_rect`:
`move a b` is an M command, `line a b` an L command, `arc r1 r2 a b` an
A command (elliptical arc, flags fixed at `0 0 1` in the source), and
`close` the final Z. -/
inductive PathCmd where
  | move (a b : ℚ)
  | line (a b : ℚ)
  | arc (r1 r2 a b : ℚ)
  | close
deriving DecidableEq, Repr

deriving instance DecidableEq for Except

/-- A drawing primitive handed to the svgwrite group (`self.g.add(...)`):
`circle` carries center, radius, fill and stroke; `rect` carries the
insert point, size, fill, stroke and an optional stroke width (the
source only passes `stroke_width` for the white marker-bit squares);
`path` carries the synthesized path data, fill and stroke. -/
inductive Prim where
  | circle (cx cy r : ℚ) (fill stroke : String)
  | rect (x y w h : ℚ) (fill stroke : String) (strokeWidth : Option ℚ)
  | path (d : Except String (List PathCmd)) (fill stroke : String)
deriving DecidableEq, Repr

/-- The fields of `PatternMaker.__init__` that the layout algorithms read:
grid size, square size, radius rate, page size, the optional Radon marker
list and the configured ArUco marker size. -/
structure PatternMaker where
  cols : Nat
  rows : Nat
  squareSize : ℚ
  radiusRate : ℚ
  width : ℚ
  height : ℚ
  markers : Option (List (Int × Int))
  arucoMarkerSize : ℚ
deriving DecidableEq, Repr

/-- `r = spacing / self.radius_rate` in `make_circles_pattern` (the
identical local computation also opens `make_acircles_pattern`). -/
def circlesR (pm : PatternMaker) : ℚ := pm.squareSize / pm.radiusRate

/-- `pattern_width = ((self.cols - 1.0) * spacing) + (2.0 * r)` in
`make_circles_pattern`. -/
def circlesPatternWidth (pm : PatternMaker) : ℚ :=
  ((pm.cols : ℚ) - 1) * pm.squareSize + 2 * circlesR pm

/-- `pattern_height = ((self.rows - 1.0) * spacing) + (2.0 * r)` in
`make_circles_pattern`. -/
def circlesPatternHeight (pm : PatternMaker) : ℚ :=
  ((pm.rows : ℚ) - 1) * pm.squareSize + 2 * circlesR pm

/-- `x_spacing = (self.width - pattern_width) / 2.0` in
`make_circles_pattern`. -/
def circlesXSpacing (pm : PatternMaker) : ℚ :=
  (pm.width - circlesPatternWidth pm) / 2

/-- `y_spacing = (self.height - pattern_height) / 2.0` in
`make_circles_pattern`. -/
def circlesYSpacing (pm : PatternMaker) : ℚ :=
  (pm.height - circlesPatternHeight pm) / 2

/-- `PatternMaker.make_circles_pattern`: the nested `for x / for y` loops
emitting one black circle per grid cell, centered at
`((x * spacing) + x_spacing + r, (y * spacing) + y_spacing + r)`. -/
def makeCirclesPattern (pm : PatternMaker) : List Prim :=
  (List.range pm.cols).flatMap (fun (x : Nat) =>
    (List.range pm.rows).map (fun (y : Nat) =>
      Prim.circle ((x : ℚ) * pm.squareSize + circlesXSpacing pm + circlesR pm)
        ((y : ℚ) * pm.squareSize + circlesYSpacing pm + circlesR pm)
        (circlesR pm) ("black") ("none")))

/-- The generic circle-grid per-cell centering formula (one axis):
`cell * squareSize + (page - ((count - 1) * squareSize + 2r)) / 2 + r`.
Stated once so that theorems can express that both the circle grid and
the Radon overlay dots use this same formula. -/
def circleGridCenter (count : Nat) (s page r cell : ℚ) : ℚ :=
  cell * s + (page - (((count : ℚ) - 1) * s + 2 * r)) / 2 + r

/-- `pattern_width = ((self.cols-1.0) * 2 * spacing) + spacing + (2.0 * r)`
in `make_acircles_pattern`. -/
def acirclesPatternWidth (pm : PatternMaker) : ℚ :=
  ((pm.cols : ℚ) - 1) * 2 * pm.squareSize + pm.squareSize + 2 * circlesR pm

/-- `pattern_height = ((self.rows-1.0) * spacing) + (2.0 * r)` in
`make_acircles_pattern`. -/
def acirclesPatternHeight (pm : PatternMaker) : ℚ :=
  ((pm.rows : ℚ) - 1) * pm.squareSize + 2 * circlesR pm

/-- `x_spacing = (self.width - pattern_width) / 2.0` in
`make_acircles_pattern`. -/
def acirclesXSpacing (pm : PatternMaker) : ℚ :=
  (pm.width - acirclesPatternWidth pm) / 2

/-- `y_spacing = (self.height - pattern_height) / 2.0` in
`make_acircles_pattern`. -/
def acirclesYSpacing (pm : PatternMaker) : ℚ :=
  (pm.height - acirclesPatternHeight pm) / 2

/-- The x-coordinate of the circle center emitted for cell `(x, y)` by
`make_acircles_pattern`: `(2 * x * spacing) + (y % 2) * spacing +
x_spacing + r`. -/
def acirclesCenterX (pm : PatternMaker) (x y : Nat) : ℚ :=
  2 * (x : ℚ) * pm.squareSize + ((y % 2 : Nat) : ℚ) * pm.squareSize +
    acirclesXSpacing pm + circlesR pm

/-- The y-coordinate of the circle center emitted for cell `(x, y)` by
`make_acircles_pattern`: `(y * spacing) + y_spacing + r`. -/
def acirclesCenterY (pm : PatternMaker) (y : Nat) : ℚ :=
  (y : ℚ) * pm.squareSize + acirclesYSpacing pm + circlesR pm

/-- `PatternMaker.make_acircles_pattern`: one black circle per cell at the
staggered center. -/
def makeACirclesPattern (pm : PatternMaker) : List Prim :=
  (List.range pm.cols).flatMap (fun (x : Nat) =>
    (List.range pm.rows).map (fun (y : Nat) =>
      Prim.circle (acirclesCenterX pm x y) (acirclesCenterY pm y)
        (circlesR pm) ("black") ("none")))

/-- `PatternMaker._make_round_rect(x, y, diam, corners)`: builds the path
command list starting with `M(x+rad, y)`, then for each corner index `i`
(clockwise from top-left) either two straight segments (flag `right`),
one quarter-circle arc (flag `round`), or a `TypeError` for any other
flag; finally appends `Z`.  The corner tuple is modelled as a function
`Fin 4 → String`; `i + 1` on `Fin 4` is the source's `(i + 1) % n`.
`roundRectStep` is one iteration of the `for i in range(n)` loop body,
with the local tables `cw_point` and `mid_cw_point`. -/
def roundRectStep (x y diam : ℚ) (corners : Fin 4 → String) (p : List PathCmd) (i : Fin 4) :
    Except String (List PathCmd) :=
  let rad := diam / 2
  let cw : Fin 4 → ℚ × ℚ := ![(0, 0), (diam, 0), (diam, diam), (0, diam)]
  let mid : Fin 4 → ℚ × ℚ := ![(0, rad), (rad, 0), (diam, rad), (rad, diam)]
  if corners i = ("right") then
    Except.ok (p ++ [PathCmd.line (x + (cw i).1) (y + (cw i).2),
      PathCmd.line (x + (mid (i + 1)).1) (y + (mid (i + 1)).2)])
  else if corners i = ("round") then
    Except.ok (p ++ [PathCmd.arc rad rad (x + (mid (i + 1)).1) (y + (mid (i + 1)).2)])
  else Except.error ("unknown corner type")

/-- `PatternMaker._make_round_rect` assembled: the initial
`M(x + rad, y)` element, the four loop iterations, and the final `Z`. -/
def makeRoundRect (x y diam : ℚ) (corners : Fin 4 → String) :
    Except String (List PathCmd) :=
  (([0, 1, 2, 3] : List (Fin 4)).foldlM (roundRectStep x y diam corners)
    [PathCmd.move (x + diam / 2) y]).map (fun body => body ++ [PathCmd.close])

/-- `PatternMaker._get_type(x, y)`: starts from four `right` corner flags
and `is_inside = True`, then each of the four edge tests (`x == 0`,
`y == 0`, `x == self.cols - 1`, `y == self.rows - 1`) overwrites its two
corner slots with `round` and clears `is_inside`.  Corner slots are
indexed clockwise from top-left: 0 = top-left, 1 = top-right,
2 = bottom-right, 3 = bottom-left. -/
def getType (cols rows x y : Nat) : List String × Bool :=
  let c0 : List String × Bool := ([("right"), ("right"), ("right"), ("right")], true)
  let c1 := if x = 0 then (((c0.1.set 0 ("round")).set 3 ("round")), false) else c0
  let c2 := if y = 0 then (((c1.1.set 0 ("round")).set 1 ("round")), false) else c1
  let c3 := if x = cols - 1 then (((c2.1.set 1 ("round")).set 2 ("round")), false) else c2
  let c4 := if y = rows - 1 then (((c3.1.set 2 ("round")).set 3 ("round")), false) else c3
  c4

/-- `r = self.square_size * 0.17` in the overlay pass of
`make_radon_checkerboard_pattern`. -/
def radonOverlayR (pm : PatternMaker) : ℚ := pm.squareSize * (17 / 100)

/-- `x_spacing = (self.width - pattern_width) / 2.0` with
`pattern_width = ((self.cols - 1.0) * spacing) + (2.0 * r)` in the
overlay pass of `make_radon_checkerboard_pattern`. -/
def radonOverlayXSpacing (pm : PatternMaker) : ℚ :=
  (pm.width - (((pm.cols : ℚ) - 1) * pm.squareSize + 2 * radonOverlayR pm)) / 2

/-- `y_spacing = (self.height - pattern_height) / 2.0` with
`pattern_height = ((self.rows - 1.0) * spacing) + (2.0 * r)` in the
overlay pass of `make_radon_checkerboard_pattern`. -/
def radonOverlayYSpacing (pm : PatternMaker) : ℚ :=
  (pm.height - (((pm.rows : ℚ) - 1) * pm.squareSize + 2 * radonOverlayR pm)) / 2

/-- One overlay dot of the Radon board: for a supplied pair `(x, y)` the
source sets `color = "black"` then `"white"` when `x % 2 == y % 2`, and
emits a circle of radius `r = squareSize * 0.17` centered at
`((x * spacing) + x_spacing + r, (y * spacing) + y_spacing + r)`. -/
def radonOverlayDot (pm : PatternMaker) (p : Int × Int) : Prim :=
  Prim.circle ((p.1 : ℚ) * pm.squareSize + radonOverlayXSpacing pm + radonOverlayR pm)
    ((p.2 : ℚ) * pm.squareSize + radonOverlayYSpacing pm + radonOverlayR pm)
    (radonOverlayR pm)
    (if p.1 % 2 = p.2 % 2 then ("white") else ("black")) ("none")

/-- `PatternMaker.make_radon_checkerboard_pattern`: the board pass emits,
for each cell with `x % 2 == y % 2`, either a plain black rect (when
`_get_type` reports the cell inside) or a black path from
`_make_round_rect` with the computed corner flags; then, when a marker
list is present, the overlay pass appends one dot per listed pair. -/
def makeRadonCheckerboardPattern (pm : PatternMaker) : List Prim :=
  let spacing := pm.squareSize
  let xspacing := (pm.width - (pm.cols : ℚ) * pm.squareSize) / 2
  let yspacing := (pm.height - (pm.rows : ℚ) * pm.squareSize) / 2
  let board := (List.range pm.cols).flatMap (fun (x : Nat) =>
    (List.range pm.rows).filterMap (fun (y : Nat) =>
      if x % 2 = y % 2 then
        some (
          let ct := getType pm.cols pm.rows x y
          if ct.2 then
            Prim.rect ((x : ℚ) * spacing + xspacing) ((y : ℚ) * spacing + yspacing)
              spacing spacing ("black") ("none") none
          else
            Prim.path (makeRoundRect ((x : ℚ) * spacing + xspacing)
                ((y : ℚ) * spacing + yspacing) spacing (fun i => ct.1.getD i.val ("")))
              ("black") ("none"))
      else none))
  let overlay := match pm.markers with
    | none => []
    | some l => l.map (fun p => radonOverlayDot pm p)
  board ++ overlay

/-- The default `PatternMaker` configuration of the GUI and CLI: 8 columns,
11 rows, square size 20, radius rate 5, on an A4 page of 210 by 297 mm. -/
def pm8 : PatternMaker :=
  { cols := 8, rows := 11, squareSize := 20, radiusRate := 5,
    width := 210, height := 297, markers := none, arucoMarkerSize := 10 }

/-- A 5 by 5 Radon/charuco board on A4 with square size 20. -/
def pm55 : PatternMaker :=
  { cols := 5, rows := 5, squareSize := 20, radiusRate := 5,
    width := 210, height := 297, markers := none, arucoMarkerSize := 10 }

/-- `pm55` with a Radon marker list containing an out-of-grid pair. -/
def pmMarked : PatternMaker := { pm55 with markers := some [(6, 7), (-1, 2)] }

/-- `np.zeros((m, m))`: an `m` by `m` grid of integer zeros (the source's
float array only ever holds the integers written into it). -/
def zeroGrid (m : Nat) : List (List Int) :=
  List.replicate m (List.replicate m 0)

/-- One numpy element assignment `g[i][j] = v`.  Like the numpy write, it
is a no-op outside the array bounds (never reached by the source). -/
def setEntry (g : List (List Int)) (i j : Nat) (v : Int) : List (List Int) :=
  g.set i ((g.getD i []).set j v)

/-- Reading `g[r][c]` of a grid, with 0 for out-of-range indices. -/
def entry (g : List (List Int)) (r c : Nat) : Int :=
  (g.getD r []).getD c 0

/-- `PatternMaker._create_marker_bits(markerSize_bits, byteList)`: a zero
array of side `markerSize_bits + 2`; the loops write
`bits[i][j] = int(byteList[i*markerSize_bits+j])` through the
`marker[1:markerSize_bits+1, 1:markerSize_bits+1]` view, i.e. into
`marker[1+i][1+j]`. -/
def createMarkerBits (markerSizeBits : Nat) (byteList : List Int) : List (List Int) :=
  (List.range markerSizeBits).foldl (fun m i =>
    (List.range markerSizeBits).foldl (fun mm j =>
      setEntry mm (1 + i) (1 + j) (byteList.getD (i * markerSizeBits + j) 0)) m)
    (zeroGrid (markerSizeBits + 2))

/-- Shape invariant of a grid: `m` rows, each of length `m`. -/
def wfGrid (g : List (List Int)) (m : Nat) : Prop :=
  g.length = m ∧ ∀ r, r < m → (g.getD r []).length = m

/-- The fields of the parsed ArUco dictionary JSON that
`make_charuco_board` reads: `nmarkers`, `markersize`, and the per-marker
bit sequences `marker_0, marker_1, ...` normalized into an ordered
list. -/
structure ArucoDict where
  nmarkers : Int
  markersize : Nat
  markers : List (List Int)
deriving DecidableEq, Repr

/-- `PatternMaker.make_charuco_board`, as a function from the primitive
group before the call (`g0`, the state of `self.g`) to the group after:
the marker-size check (`aruco_marker_size > square_size`) and the
dictionary-size check (`nmarkers < int(cols * rows / 2)`, integer
truncation) each return early with the group untouched; otherwise the
`for y / for x` loops append, per cell, either one black square
(`x % 2 == y % 2`) or one black marker square followed by one white
sub-square per nonzero bit of the marker's grid (`x_` outer, `y_`
inner), consuming marker ids sequentially from 0. -/
def makeCharucoBoard (pm : PatternMaker) (dict : ArucoDict) (g0 : List Prim) : List Prim :=
  if pm.arucoMarkerSize > pm.squareSize then g0
  else if dict.nmarkers < ((pm.cols * pm.rows / 2 : Nat) : Int) then g0
  else
    let markerSizeBits := dict.markersize
    let side := pm.arucoMarkerSize / ((markerSizeBits : ℚ) + 2)
    let spacing := pm.squareSize
    let xspacing := (pm.width - (pm.cols : ℚ) * pm.squareSize) / 2
    let yspacing := (pm.height - (pm.rows : ℚ) * pm.squareSize) / 2
    let border := (pm.squareSize - pm.arucoMarkerSize) / 2
    ((List.range pm.rows).foldl (fun acc (y : Nat) =>
      (List.range pm.cols).foldl (fun (acc : List Prim × Nat) (x : Nat) =>
        if x % 2 = y % 2 then
          (acc.1 ++ [Prim.rect ((x : ℚ) * spacing + xspacing) ((y : ℚ) * spacing + yspacing)
              spacing spacing ("black") ("none") none], acc.2)
        else
          let imgMark := createMarkerBits markerSizeBits (dict.markers.getD acc.2 [])
          let xPos := (x : ℚ) * spacing + xspacing
          let yPos := (y : ℚ) * spacing + yspacing
          (acc.1 ++ [Prim.rect (xPos + border) (yPos + border)
              pm.arucoMarkerSize pm.arucoMarkerSize ("black") ("none") none] ++
            (List.range (markerSizeBits + 2)).flatMap (fun (xb : Nat) =>
              (List.range (markerSizeBits + 2)).filterMap (fun (yb : Nat) =>
                if entry imgMark yb xb ≠ 0 then
                  some (Prim.rect (xPos + border + (xb : ℚ) * side)
                    (yPos + border + (yb : ℚ) * side) side side
                    ("white") ("white") (some (spacing * (1 / 100))))
                else none)),
           acc.2 + 1)) acc) (g0, 0)).1

/-- The svgwrite `Drawing`: an ordered list of added element groups. -/
structure Drawing where
  elements : List (List Prim)
deriving DecidableEq, Repr

/-- `self.dwg.add(self.g)`: appends the group to the drawing. -/
def dwgAdd (d : Drawing) (g : List Prim) : Drawing :=
  ⟨d.elements ++ [g]⟩

/-- `PatternMaker.get_svg_string`: adds the group to the drawing, then
serializes; returns the mutated drawing together with the serialized
document (modelled as the drawing's element-group list). -/
def getSvgString (d : Drawing) (g : List Prim) : Drawing × List (List Prim) :=
  (dwgAdd d g, (dwgAdd d g).elements)

/-- `PatternMaker.save`: identical add-then-serialize step, the output
going to a file instead of a string. -/
def saveDrawing (d : Drawing) (g : List Prim) : Drawing × List (List Prim) :=
  (dwgAdd d g, (dwgAdd d g).elements)

/-- The drawing state after `k` successive `get_svg_string` calls on the
same `PatternMaker`. -/
def afterCalls (d : Drawing) (g : List Prim) : Nat → Drawing
  | 0 => d
  | k + 1 => (getSvgString (afterCalls d g k) g).1

/-- A 1 by 2 board whose ArUco marker size equals its square size. -/
def pmCharucoEq : PatternMaker :=
  { cols := 1, rows := 2, squareSize := 20, radiusRate := 5,
    width := 210, height := 297, markers := none, arucoMarkerSize := 20 }

/-- A 2 by 2 board with the default marker size 10 (below square size 20). -/
def pm22 : PatternMaker :=
  { cols := 2, rows := 2, squareSize := 20, radiusRate := 5,
    width := 210, height := 297, markers := none, arucoMarkerSize := 10 }

/-- `pm22` with an ArUco marker size above its square size. -/
def pmTooBig : PatternMaker := { pm22 with arucoMarkerSize := 30 }

/-- A one-marker dictionary with 1-bit markers. -/
def dictSmall : ArucoDict := { nmarkers := 1, markersize := 1, markers := [[1]] }

/-- A two-marker dictionary with 1-bit markers. -/
def dictTwo : ArucoDict := { nmarkers := 2, markersize := 1, markers := [[1], [0]] }

/-- A twelve-marker dictionary with 1-bit markers: exactly
`int(5 * 5 / 2) = 12` markers, one fewer than the ceiling 13. -/
def dict12 : ArucoDict :=
  { nmarkers := 12, markersize := 1, markers := List.replicate 12 [1] }

/-! ## Theorems -/

lemma mem_flatMap_range {β : Type} (F : Nat → List β) (n x : Nat) (hx : x < n)
    (e : β) (he : e ∈ F x) : e ∈ (List.range n).flatMap F :=
  List.mem_flatMap.mpr ⟨x, List.mem_range.mpr hx, he⟩

lemma afterCalls_elements (d : Drawing) (g : List Prim) (k : Nat) :
    (afterCalls d g k).elements = d.elements ++ List.replicate k g := by
  induction k with
  | zero => simp [afterCalls]
  | succ k ih =>
    simp [afterCalls, getSvgString, dwgAdd, ih, List.replicate_succ']

/-- Claim C1 (amended): for the circles pattern with columns=8, rows=11,
squareSize=20, radiusRate=5 on a 210 by 297 page, `make_circles_pattern`
computes radius 4, footprint (148, 208), centering offsets (31, 44.5),
and emits the circle for cell (0,0) centered at (35, 48.5); in general
every cell (x,y) with x < columns, y < rows yields a circle centered at
(x*squareSize + xOffset + r, y*squareSize + yOffset + r) with
r = squareSize/radiusRate and offsets = (page - footprint)/2 per axis. -/
theorem claim_C1_circles :
    (circlesR pm8 = 4 ∧ circlesPatternWidth pm8 = 148 ∧ circlesPatternHeight pm8 = 208 ∧
      circlesXSpacing pm8 = 31 ∧ circlesYSpacing pm8 = 89 / 2 ∧
      (makeCirclesPattern pm8).head? = some (Prim.circle 35 (97 / 2) 4 ("black") ("none"))) ∧
    ∀ (pm : PatternMaker) (x y : Nat), x < pm.cols → y < pm.rows →
      Prim.circle ((x : ℚ) * pm.squareSize + circlesXSpacing pm + circlesR pm)
        ((y : ℚ) * pm.squareSize + circlesYSpacing pm + circlesR pm)
        (circlesR pm) ("black") ("none") ∈ makeCirclesPattern pm := by
  constructor
  · with_unfolding_all decide
  · intro pm x y hx hy
    have hmem : Prim.circle ((x : ℚ) * pm.squareSize + circlesXSpacing pm + circlesR pm)
        ((y : ℚ) * pm.squareSize + circlesYSpacing pm + circlesR pm)
        (circlesR pm) ("black") ("none") ∈
        (List.range pm.rows).map (fun y : Nat =>
          Prim.circle ((x : ℚ) * pm.squareSize + circlesXSpacing pm + circlesR pm)
            ((y : ℚ) * pm.squareSize + circlesYSpacing pm + circlesR pm)
            (circlesR pm) ("black") ("none")) :=
      List.mem_map_of_mem _ (List.mem_range.mpr hy)
    unfold makeCirclesPattern
    exact mem_flatMap_range _ pm.cols x hx _ hmem

/-- Claim C1 witness: the amended general rule applied to the default
8 by 11 board at cell (0,0). -/
theorem claim_C1_witness :
    0 < pm8.cols ∧ 0 < pm8.rows ∧
      Prim.circle (((0 : Nat) : ℚ) * pm8.squareSize + circlesXSpacing pm8 + circlesR pm8)
        (((0 : Nat) : ℚ) * pm8.squareSize + circlesYSpacing pm8 + circlesR pm8)
        (circlesR pm8) ("black") ("none") ∈ makeCirclesPattern pm8 :=
  ⟨by decide, by decide, claim_C1_circles.2 pm8 0 0 (by decide) (by decide)⟩

/-- Claim C1 counterexample: on the 8 by 11, squareSize 20, radiusRate 5,
210 by 297 configuration the code's footprint height is 208 (not the
claimed 108), the y offset is 44.5 (not 94.5), and the cell (0,0) circle
is centered at (35, 48.5) (not (35, 98.5)). -/
theorem claim_C1_counterexample :
    circlesPatternHeight pm8 = 208 ∧ circlesYSpacing pm8 = 89 / 2 ∧
      (makeCirclesPattern pm8).head? = some (Prim.circle 35 (97 / 2) 4 ("black") ("none")) ∧
      ¬(circlesPatternHeight pm8 = 108 ∧ circlesYSpacing pm8 = 189 / 2 ∧
          (makeCirclesPattern pm8).head? = some (Prim.circle 35 (197 / 2) 4 ("black") ("none"))) := by
  with_unfolding_all decide

/-- Claim C2 counterexample: on a 5 by 5 Radon board, `_get_type(0, 0)`
returns three rounded corners (top-left, top-right, bottom-left), not
the claimed two flags with a square top-right corner. -/
theorem claim_C2_counterexample :
    (getType 5 5 0 0).1 = [("round"), ("round"), ("right"), ("round")] ∧
      (getType 5 5 0 0).1 ≠ [("round"), ("right"), ("right"), ("round")] := by
  decide

/-- Claim C2 (amended): on a 5 by 5 Radon board, cell (0,0) lies on the
left and top edges and gets three corners rounded (both corners of each
touched edge, the shared top-left corner once): flags
{top-left round, top-right round, bottom-right square, bottom-left
round}; it is rendered via the rounded-rect path, which is the first
primitive emitted; interior filled cells such as (2,2) are rendered as
plain rectangles; and on a 1 by N or N by 1 board every boundary-filled
cell gets all four corners rounded. -/
theorem claim_C2_radonCorners :
    getType 5 5 0 0 = ([("round"), ("round"), ("right"), ("round")], false) ∧
    getType 5 5 2 2 = ([("right"), ("right"), ("right"), ("right")], true) ∧
    (makeRadonCheckerboardPattern pm55).head? =
      some (Prim.path (makeRoundRect 55 (197 / 2) 20
        (fun i => ([("round"), ("round"), ("right"), ("round")] : List String).getD i.val (""))) ("black") ("none")) ∧
    Prim.rect 95 (277 / 2) 20 20 ("black") ("none") none ∈ makeRadonCheckerboardPattern pm55 ∧
    (∀ rows y : Nat, (getType 1 rows 0 y).1 = [("round"), ("round"), ("round"), ("round")]) ∧
    (∀ cols x : Nat, (getType cols 1 x 0).1 = [("round"), ("round"), ("round"), ("round")]) := by
  refine ⟨by decide, by decide, by with_unfolding_all decide, by with_unfolding_all decide, ?_, ?_⟩
  · intro rows y
    simp only [getType]
    split_ifs <;> rfl
  · intro cols x
    simp only [getType]
    split_ifs <;> rfl

/-- Claim C7: in the asymmetric circle grid, the horizontal displacement
between the centers at (x, y) and (x, y+1) is squareSize when y is even
and -squareSize when y is odd; two rows apart it is 0; and the center
x-coordinate is 2*x*squareSize + (y mod 2)*squareSize + xOffset + r. -/
theorem claim_C7_acircles :
    ∀ (pm : PatternMaker) (x y : Nat),
      (y % 2 = 0 → acirclesCenterX pm x (y + 1) - acirclesCenterX pm x y = pm.squareSize) ∧
      (y % 2 = 1 → acirclesCenterX pm x (y + 1) - acirclesCenterX pm x y = -pm.squareSize) ∧
      acirclesCenterX pm x (y + 2) - acirclesCenterX pm x y = 0 ∧
      acirclesCenterX pm x y =
        2 * (x : ℚ) * pm.squareSize + ((y % 2 : Nat) : ℚ) * pm.squareSize +
          acirclesXSpacing pm + circlesR pm := by
  intro pm x y
  refine ⟨?_, ?_, ?_, rfl⟩
  · intro h
    have h1 : (y + 1) % 2 = 1 := by omega
    simp only [acirclesCenterX, h, h1]
    push_cast
    ring
  · intro h
    have h1 : (y + 1) % 2 = 0 := by omega
    simp only [acirclesCenterX, h, h1]
    push_cast
    ring
  · have h2 : (y + 2) % 2 = y % 2 := by omega
    simp only [acirclesCenterX, h2]
    ring

/-- Claim C7 witness: even-to-odd displacement at column 0, rows 0 to 1,
on the default 8 by 11 configuration equals the square size. -/
theorem claim_C7_witness :
    (0 : Nat) % 2 = 0 ∧
      acirclesCenterX pm8 0 (0 + 1) - acirclesCenterX pm8 0 0 = pm8.squareSize :=
  ⟨rfl, (claim_C7_acircles pm8 0 0).1 rfl⟩

/-- Claim C9: each `get_svg_string` (or `save`) call appends the primitive
group to the drawing again, so after k+1 calls on a drawing that started
empty the serialized document consists of k+1 copies of the group; in
general the drawing after k calls holds its original elements followed by
k copies, and `save` performs the same add-then-serialize step. -/
theorem claim_C9_serialization :
    ∀ (d : Drawing) (g : List Prim) (k : Nat),
      (afterCalls d g k).elements = d.elements ++ List.replicate k g ∧
      (getSvgString (afterCalls d g k) g).2 = d.elements ++ List.replicate (k + 1) g ∧
      (getSvgString (afterCalls ⟨[]⟩ g k) g).2 = List.replicate (k + 1) g ∧
      saveDrawing d g = getSvgString d g := by
  intro d g k
  refine ⟨afterCalls_elements d g k, ?_, ?_, rfl⟩
  · simp [getSvgString, dwgAdd, afterCalls_elements, List.replicate_succ']
  · simp [getSvgString, dwgAdd, afterCalls_elements, List.replicate_succ']

lemma foldlM_except_ok_append {ι : Type} (S : List PathCmd → ι → Except String (List PathCmd))
    (valid : ι → Prop)
    (Hok : ∀ p i, valid i → ∃ u, S p i = Except.ok (p ++ u)) :
    ∀ (L : List ι) (p0 : List PathCmd), (∀ i ∈ L, valid i) →
      ∃ t, L.foldlM S p0 = Except.ok (p0 ++ t) := by
  intro L
  induction L with
  | nil =>
    intro p0 _
    refine ⟨[], ?_⟩
    simp only [List.foldlM_nil, List.append_nil]
    rfl
  | cons a L ih =>
    intro p0 hv
    obtain ⟨u, hu⟩ := Hok p0 a (hv a (List.mem_cons_self a L))
    obtain ⟨t, ht⟩ := ih (p0 ++ u) (fun i hi => hv i (List.mem_cons_of_mem a hi))
    refine ⟨u ++ t, ?_⟩
    rw [List.foldlM_cons, hu]
    show (L.foldlM S (p0 ++ u)) = Except.ok (p0 ++ (u ++ t))
    rw [ht, List.append_assoc]

lemma foldlM_except_error {ι : Type} (S : List PathCmd → ι → Except String (List PathCmd))
    (valid : ι → Prop) (msg : String)
    (Hok : ∀ p i, valid i → ∃ u, S p i = Except.ok (p ++ u))
    (Herr : ∀ p i, ¬valid i → S p i = Except.error msg) :
    ∀ (L : List ι) (p0 : List PathCmd), (∃ i ∈ L, ¬valid i) →
      L.foldlM S p0 = Except.error msg := by
  intro L
  induction L with
  | nil => intro p0 h; simp at h
  | cons a L ih =>
    intro p0 h
    by_cases ha : valid a
    · obtain ⟨u, hu⟩ := Hok p0 a ha
      have hrem : ∃ i ∈ L, ¬valid i := by
        obtain ⟨i, hi, hvi⟩ := h
        rcases List.mem_cons.mp hi with rfl | hi2
        · exact absurd ha hvi
        · exact ⟨i, hi2, hvi⟩
      rw [List.foldlM_cons, hu]
      show L.foldlM S (p0 ++ u) = Except.error msg
      exact ih (p0 ++ u) hrem
    · rw [List.foldlM_cons, Herr p0 a ha]
      rfl

/-- Claim C10: `_make_round_rect` is total on its intended domain and
guarded outside it: for every origin, diameter and corner 4-tuple whose
flags all lie in {right, round} it returns a path starting with the
`M` command at the top-edge midpoint (x + diameter/2, y) and ending with
`Z`, and it returns the `TypeError` exactly when some flag is neither
`right` nor `round`. -/
theorem claim_C10_roundRect (x y diam : ℚ) (corners : Fin 4 → String) :
    ((∀ i, corners i = ("right") ∨ corners i = ("round")) →
      ∃ p, makeRoundRect x y diam corners = Except.ok p ∧
        p.head? = some (PathCmd.move (x + diam / 2) y) ∧
        p.getLast? = some PathCmd.close) ∧
    ((∃ i, ¬(corners i = ("right") ∨ corners i = ("round"))) →
      makeRoundRect x y diam corners = Except.error ("unknown corner type")) := by
  have Hok : ∀ (p : List PathCmd) (i : Fin 4),
      (corners i = ("right") ∨ corners i = ("round")) →
      ∃ u, roundRectStep x y diam corners p i = Except.ok (p ++ u) := by
    intro p i h
    rcases h with h | h <;> simp [roundRectStep, h]
  have Herr : ∀ (p : List PathCmd) (i : Fin 4),
      ¬(corners i = ("right") ∨ corners i = ("round")) →
      roundRectStep x y diam corners p i = Except.error ("unknown corner type") := by
    intro p i h
    push_neg at h
    simp [roundRectStep, h.1, h.2]
  constructor
  · intro hv
    obtain ⟨t, ht⟩ := foldlM_except_ok_append (roundRectStep x y diam corners)
      (fun i => corners i = ("right") ∨ corners i = ("round")) Hok
      ([0, 1, 2, 3] : List (Fin 4)) [PathCmd.move (x + diam / 2) y] (fun i _ => hv i)
    refine ⟨(PathCmd.move (x + diam / 2) y :: t) ++ [PathCmd.close], ?_, ?_, ?_⟩
    · unfold makeRoundRect
      rw [ht]
      rfl
    · rfl
    · exact List.getLast?_concat _
  · intro h
    obtain ⟨i, hi⟩ := h
    have hmem : i ∈ ([0, 1, 2, 3] : List (Fin 4)) := by fin_cases i <;> simp
    have herr := foldlM_except_error (roundRectStep x y diam corners)
      (fun i => corners i = ("right") ∨ corners i = ("round")) ("unknown corner type")
      Hok Herr ([0, 1, 2, 3] : List (Fin 4)) [PathCmd.move (x + diam / 2) y] ⟨i, hmem, hi⟩
    unfold makeRoundRect
    rw [herr]
    rfl

/-- Claim C10 witness: the all-square-corners call on the unit
configuration succeeds. -/
theorem claim_C10_witness :
    (makeRoundRect 0 0 2 (fun _ => ("right"))).isOk = true := by
  obtain ⟨p, hp, _, _⟩ := (claim_C10_roundRect 0 0 2 (fun _ => ("right"))).1
    (fun i => Or.inl rfl)
  rw [hp]
  rfl

lemma getD_set {α : Type} (l : List α) (i j : Nat) (a d : α) :
    (l.set i a).getD j d = if i = j ∧ j < l.length then a else l.getD j d := by
  induction l generalizing i j with
  | nil => simp
  | cons hd tl ih =>
    cases i with
    | zero =>
      cases j with
      | zero => simp
      | succ j => simp
    | succ i =>
      cases j with
      | zero => simp
      | succ j =>
        simp only [List.set_cons_succ, List.getD_cons_succ, List.length_cons]
        rw [ih]
        have hiff : (i = j ∧ j < tl.length) ↔ (i + 1 = j + 1 ∧ j + 1 < tl.length + 1) := by
          omega
        rw [if_congr hiff rfl rfl]

lemma getD_replicate {α : Type} (m i : Nat) (x d : α) :
    (List.replicate m x).getD i d = if i < m then x else d := by
  induction m generalizing i with
  | zero => simp
  | succ m ih =>
    cases i with
    | zero => simp
    | succ i =>
      simp only [List.replicate_succ, List.getD_cons_succ, ih]
      have hiff : (i < m) ↔ (i + 1 < m + 1) := by omega
      rw [if_congr hiff rfl rfl]

lemma wfGrid_zeroGrid (m : Nat) : wfGrid (zeroGrid m) m := by
  constructor
  · simp [zeroGrid]
  · intro r hr
    simp [zeroGrid, getD_replicate, hr]

lemma wfGrid_setEntry {g : List (List Int)} {m : Nat} (h : wfGrid g m)
    (i j : Nat) (v : Int) : wfGrid (setEntry g i j v) m := by
  constructor
  · simp [setEntry, h.1]
  · intro r hr
    unfold setEntry
    rw [getD_set]
    have hlen := h.1
    split_ifs with hc
    · rw [List.length_set]
      exact h.2 i (by omega)
    · exact h.2 r hr

lemma entry_zeroGrid (m r c : Nat) : entry (zeroGrid m) r c = 0 := by
  unfold entry zeroGrid
  rw [getD_replicate]
  split_ifs
  · rw [getD_replicate]
    split_ifs <;> rfl
  · simp

lemma entry_setEntry {g : List (List Int)} {m : Nat} (h : wfGrid g m)
    {i j : Nat} (hi : i < m) (hj : j < m) (v : Int) (r c : Nat) :
    entry (setEntry g i j v) r c = if r = i ∧ c = j then v else entry g r c := by
  unfold entry setEntry
  rw [getD_set]
  by_cases hri : i = r ∧ r < g.length
  · rw [if_pos hri, getD_set]
    have hlen : (g.getD i []).length = m := h.2 i hi
    by_cases hcj : j = c ∧ c < (g.getD i []).length
    · rw [if_pos hcj, if_pos ⟨hri.1.symm, hcj.1.symm⟩]
    · rw [if_neg hcj, if_neg ?_, hri.1]
      intro hcon
      exact hcj ⟨hcon.2.symm, by omega⟩
  · rw [if_neg hri, if_neg ?_]
    intro hcon
    have := h.1
    exact hri ⟨hcon.1.symm, by omega⟩

lemma wfGrid_foldl_setRow (n ρ : Nat) (f : Nat → Int) (m : Nat) :
    ∀ (g : List (List Int)), wfGrid g (n + 2) →
      wfGrid ((List.range m).foldl (fun gg j => setEntry gg ρ (1 + j) (f j)) g) (n + 2) := by
  induction m with
  | zero => intro g hg; simpa using hg
  | succ m ih =>
    intro g hg
    rw [List.range_succ, List.foldl_append, List.foldl_cons, List.foldl_nil]
    exact wfGrid_setEntry (ih g hg) ρ (1 + m) (f m)

lemma entry_foldl_setRow (n ρ : Nat) (hρ : ρ < n + 2) (f : Nat → Int) (m : Nat) :
    m ≤ n + 1 → ∀ (g : List (List Int)), wfGrid g (n + 2) → ∀ (r c : Nat),
      entry ((List.range m).foldl (fun gg j => setEntry gg ρ (1 + j) (f j)) g) r c =
        if r = ρ ∧ 1 ≤ c ∧ c < 1 + m then f (c - 1) else entry g r c := by
  induction m with
  | zero =>
    intro _ g hg r c
    rw [List.range_zero, List.foldl_nil, if_neg (by omega)]
  | succ m ih =>
    intro hm g hg r c
    rw [List.range_succ, List.foldl_append, List.foldl_cons, List.foldl_nil]
    rw [entry_setEntry (wfGrid_foldl_setRow n ρ f m g hg) hρ (by omega) (f m) r c]
    rw [ih (by omega) g hg r c]
    by_cases h1 : r = ρ ∧ c = 1 + m
    · rw [if_pos h1, if_pos (by omega)]
      have hc1 : c - 1 = m := by omega
      rw [hc1]
    · rw [if_neg h1]
      by_cases h2 : r = ρ ∧ 1 ≤ c ∧ c < 1 + m
      · rw [if_pos h2, if_pos (by omega)]
      · rw [if_neg h2, if_neg (by omega)]

lemma wfGrid_foldl_rows (n : Nat) (bl : List Int) (k : Nat) :
    wfGrid ((List.range k).foldl (fun g i =>
        (List.range n).foldl (fun gg j => setEntry gg (1 + i) (1 + j) (bl.getD (i * n + j) 0)) g)
      (zeroGrid (n + 2))) (n + 2) := by
  induction k with
  | zero => simpa using wfGrid_zeroGrid (n + 2)
  | succ k ih =>
    rw [List.range_succ, List.foldl_append, List.foldl_cons, List.foldl_nil]
    exact wfGrid_foldl_setRow n (1 + k) (fun j => bl.getD (k * n + j) 0) n _ ih

lemma entry_foldl_rows (n : Nat) (bl : List Int) (k : Nat) :
    k ≤ n + 1 → ∀ (r c : Nat),
      entry ((List.range k).foldl (fun g i =>
          (List.range n).foldl (fun gg j => setEntry gg (1 + i) (1 + j) (bl.getD (i * n + j) 0)) g)
        (zeroGrid (n + 2))) r c =
      if 1 ≤ r ∧ r < 1 + k ∧ 1 ≤ c ∧ c < 1 + n then bl.getD ((r - 1) * n + (c - 1)) 0 else 0 := by
  induction k with
  | zero =>
    intro _ r c
    rw [List.range_zero, List.foldl_nil, if_neg (by omega)]
    exact entry_zeroGrid (n + 2) r c
  | succ k ih =>
    intro hk r c
    rw [List.range_succ, List.foldl_append, List.foldl_cons, List.foldl_nil]
    rw [entry_foldl_setRow n (1 + k) (by omega) (fun j => bl.getD (k * n + j) 0) n
      (by omega) _ (wfGrid_foldl_rows n bl k) r c]
    rw [ih (by omega) r c]
    by_cases h1 : r = 1 + k ∧ 1 ≤ c ∧ c < 1 + n
    · rw [if_pos h1, if_pos (by omega)]
      have hr1 : r - 1 = k := by omega
      rw [hr1]
    · rw [if_neg h1]
      by_cases h2 : 1 ≤ r ∧ r < 1 + k ∧ 1 ≤ c ∧ c < 1 + n
      · rw [if_pos h2, if_pos (by omega)]
      · rw [if_neg h2, if_neg (by omega)]

lemma entry_createMarkerBits (n : Nat) (bl : List Int) (r c : Nat) :
    entry (createMarkerBits n bl) r c =
      if 1 ≤ r ∧ r ≤ n ∧ 1 ≤ c ∧ c ≤ n then bl.getD ((r - 1) * n + (c - 1)) 0 else 0 := by
  have h := entry_foldl_rows n bl n (by omega) r c
  rw [createMarkerBits, h]
  have hiff : (1 ≤ r ∧ r < 1 + n ∧ 1 ≤ c ∧ c < 1 + n) ↔ (1 ≤ r ∧ r ≤ n ∧ 1 ≤ c ∧ c ≤ n) := by
    omega
  rw [if_congr hiff rfl rfl]

lemma wfGrid_createMarkerBits (n : Nat) (bl : List Int) :
    wfGrid (createMarkerBits n bl) (n + 2) := by
  rw [createMarkerBits]
  exact wfGrid_foldl_rows n bl n

/-- Claim C5: for every bitsPerSide at least 1 and every flat bit sequence
of length bitsPerSide squared, `_create_marker_bits` returns a
(bitsPerSide+2) by (bitsPerSide+2) grid whose outer ring is everywhere 0
and whose inner block satisfies grid[1+i][1+j] = bits[i*bitsPerSide+j]. -/
theorem claim_C5_markerBits (n : Nat) (bl : List Int)
    (hn : 1 ≤ n) (hlen : bl.length = n ^ 2) :
    (createMarkerBits n bl).length = n + 2 ∧
    (∀ r, r < n + 2 → ((createMarkerBits n bl).getD r []).length = n + 2) ∧
    (∀ r c, r < n + 2 → c < n + 2 → (r = 0 ∨ r = n + 1 ∨ c = 0 ∨ c = n + 1) →
      entry (createMarkerBits n bl) r c = 0) ∧
    (∀ i j, i < n → j < n →
      entry (createMarkerBits n bl) (1 + i) (1 + j) = bl.getD (i * n + j) 0) := by
  refine ⟨(wfGrid_createMarkerBits n bl).1, (wfGrid_createMarkerBits n bl).2, ?_, ?_⟩
  · intro r c _ _ hring
    rw [entry_createMarkerBits, if_neg (by omega)]
  · intro i j hi hj
    rw [entry_createMarkerBits, if_pos (by omega)]
    have h1 : 1 + i - 1 = i := by omega
    have h2 : 1 + j - 1 = j := by omega
    rw [h1, h2]

/-- Claim C5 witness: the single-bit marker. -/
theorem claim_C5_witness : entry (createMarkerBits 1 [1]) 1 1 = 1 := by
  have h := (claim_C5_markerBits 1 [1] (by decide) (by decide)).2.2.2 0 0
    (by decide) (by decide)
  simpa using h

/-- Claim C3 (amended): the marker-size validation aborts generation,
leaving the primitive group unchanged, exactly when the ArUco marker size
strictly exceeds the square size; a marker size strictly below the square
size passes, and a marker size exactly equal to the square size also
passes the check and the board is generated. -/
theorem claim_C3_markerSize :
    (∀ (pm : PatternMaker) (dict : ArucoDict) (g0 : List Prim),
        pm.squareSize < pm.arucoMarkerSize → makeCharucoBoard pm dict g0 = g0) ∧
    (pm22.arucoMarkerSize < pm22.squareSize ∧ makeCharucoBoard pm22 dictTwo [] ≠ []) ∧
    (pmCharucoEq.arucoMarkerSize = pmCharucoEq.squareSize ∧
      makeCharucoBoard pmCharucoEq dictSmall [] ≠ []) := by
  refine ⟨?_, ⟨by with_unfolding_all decide, by with_unfolding_all decide⟩,
    ⟨by with_unfolding_all decide, by with_unfolding_all decide⟩⟩
  intro pm dict g0 h
  unfold makeCharucoBoard
  rw [if_pos h]

/-- Claim C3 witness: an oversized marker leaves an empty group empty. -/
theorem claim_C3_witness :
    pmTooBig.squareSize < pmTooBig.arucoMarkerSize ∧
      makeCharucoBoard pmTooBig dictSmall [] = [] :=
  ⟨by with_unfolding_all decide,
    claim_C3_markerSize.1 pmTooBig dictSmall [] (by with_unfolding_all decide)⟩

/-- Claim C3 counterexample: with ArUco marker size exactly equal to the
square size (both 20 on a 1 by 2 board), the marker-size check passes and
the board is generated, contradicting the claim that equality fails with
the marker-too-large error and produces no primitives. -/
theorem claim_C3_counterexample :
    pmCharucoEq.arucoMarkerSize = pmCharucoEq.squareSize ∧
      ¬(makeCharucoBoard pmCharucoEq dictSmall [] = []) := by
  with_unfolding_all decide

/-- Claim C4 (amended): the dictionary-size validation aborts generation,
leaving the primitive group unchanged, exactly when the dictionary's
marker count is strictly below `int(columns * rows / 2)` - the truncated
(floor) half of the cell count, which equals the number of marker cells -
not the ceiling; with marker count equal to this floor the board is
emitted, so on a 5 by 5 board a dictionary of 12 markers (one fewer than
the ceiling 13) is accepted. -/
theorem claim_C4_dictSize :
    (∀ (pm : PatternMaker) (dict : ArucoDict) (g0 : List Prim),
        dict.nmarkers < ((pm.cols * pm.rows / 2 : Nat) : Int) →
        makeCharucoBoard pm dict g0 = g0) ∧
    ((5 * 5 / 2 : Nat) = 12 ∧ dict12.nmarkers = ((pm55.cols * pm55.rows / 2 : Nat) : Int) ∧
      makeCharucoBoard pm55 dict12 [] ≠ []) ∧
    ((2 * 2 / 2 : Nat) = 2 ∧ dictTwo.nmarkers = ((pm22.cols * pm22.rows / 2 : Nat) : Int) ∧
      makeCharucoBoard pm22 dictTwo [] ≠ []) := by
  refine ⟨?_, ⟨by decide, by decide, by with_unfolding_all decide⟩,
    ⟨by decide, by decide, by with_unfolding_all decide⟩⟩
  intro pm dict g0 h
  unfold makeCharucoBoard
  split_ifs <;> rfl

/-- Claim C4 witness: a one-marker dictionary on a 5 by 5 board is below
the floor 12 and leaves an empty group empty. -/
theorem claim_C4_witness :
    dictSmall.nmarkers < ((pm55.cols * pm55.rows / 2 : Nat) : Int) ∧
      makeCharucoBoard pm55 dictSmall [] = [] :=
  ⟨by decide, claim_C4_dictSize.1 pm55 dictSmall [] (by decide)⟩

/-- Claim C4 counterexample: on a 5 by 5 board (ceiling of 25/2 is 13), a
dictionary with 12 markers - one fewer than the ceiling - is accepted and
the board is emitted, contradicting the claimed ceiling rule. -/
theorem claim_C4_counterexample :
    dict12.nmarkers = 12 ∧ (12 : Int) < 13 ∧
      makeCharucoBoard pm55 dict12 [] ≠ [] := by
  with_unfolding_all decide

/-- Claim C8: when `make_charuco_board` fails either validation check
(marker too large or insufficient markers), no primitive has been emitted:
the primitive group is exactly as it was before the call. -/
theorem claim_C8_noEmissionOnError :
    ∀ (pm : PatternMaker) (dict : ArucoDict) (g0 : List Prim),
      (pm.squareSize < pm.arucoMarkerSize ∨
        dict.nmarkers < ((pm.cols * pm.rows / 2 : Nat) : Int)) →
      makeCharucoBoard pm dict g0 = g0 := by
  intro pm dict g0 h
  rcases h with h | h
  · unfold makeCharucoBoard
    rw [if_pos h]
  · unfold makeCharucoBoard
    split_ifs <;> rfl

/-- Claim C8 witness: the insufficient-markers failure on a nonempty
starting group returns that group unchanged. -/
theorem claim_C8_witness :
    (pm55.squareSize < pm55.arucoMarkerSize ∨
      dictSmall.nmarkers < ((pm55.cols * pm55.rows / 2 : Nat) : Int)) ∧
      makeCharucoBoard pm55 dictSmall [Prim.circle 1 1 1 ("black") ("none")] =
        [Prim.circle 1 1 1 ("black") ("none")] :=
  ⟨Or.inr (by decide),
    claim_C8_noEmissionOnError pm55 dictSmall _ (Or.inr (by decide))⟩

/-- Claim C6: in the Radon overlay pass, every supplied pair (x, y) -
with no bounds check, so out-of-grid pairs included - yields a dot of
radius squareSize*0.17 whose center is the circle-grid centering formula
evaluated at that cell with this fixed radius, filled white when
x mod 2 equals y mod 2 and black otherwise; and the circle grid's own
centers follow the same formula with its radius. -/
theorem claim_C6_radonOverlay :
    (∀ (pm : PatternMaker) (l : List (Int × Int)) (x y : Int),
        pm.markers = some l → (x, y) ∈ l →
        radonOverlayDot pm (x, y) ∈ makeRadonCheckerboardPattern pm) ∧
    (∀ (pm : PatternMaker) (x y : Int),
        radonOverlayDot pm (x, y) =
          Prim.circle
            (circleGridCenter pm.cols pm.squareSize pm.width (radonOverlayR pm) (x : ℚ))
            (circleGridCenter pm.rows pm.squareSize pm.height (radonOverlayR pm) (y : ℚ))
            (pm.squareSize * (17 / 100))
            (if x % 2 = y % 2 then ("white") else ("black")) ("none")) ∧
    (∀ (pm : PatternMaker) (x y : Nat),
        (x : ℚ) * pm.squareSize + circlesXSpacing pm + circlesR pm =
          circleGridCenter pm.cols pm.squareSize pm.width (circlesR pm) (x : ℚ) ∧
        (y : ℚ) * pm.squareSize + circlesYSpacing pm + circlesR pm =
          circleGridCenter pm.rows pm.squareSize pm.height (circlesR pm) (y : ℚ)) := by
  refine ⟨?_, ?_, ?_⟩
  · intro pm l x y hm hmem
    simp only [makeRadonCheckerboardPattern, hm]
    apply List.mem_append_right
    exact List.mem_map_of_mem (radonOverlayDot pm) hmem
  · intro pm x y
    rfl
  · intro pm x y
    exact ⟨rfl, rfl⟩

/-- Claim C6 witness: an out-of-grid pair (-1, 2) supplied to the 5 by 5
Radon board produces its overlay dot. -/
theorem claim_C6_witness :
    pmMarked.markers = some [(6, 7), (-1, 2)] ∧
      ((-1, 2) : Int × Int) ∈ ([(6, 7), (-1, 2)] : List (Int × Int)) ∧
      radonOverlayDot pmMarked (-1, 2) ∈ makeRadonCheckerboardPattern pmMarked :=
  ⟨rfl, by decide,
    claim_C6_radonOverlay.1 pmMarked [(6, 7), (-1, 2)] (-1) 2 rfl (by decide)⟩
